import Mathlib

/-!
Verification of the sgschema resolution engine (`sgschema/schema.py`).

The development shallowly embeds the resolution core of the `Schema` class:
`resolve_entity`, `_resolve_field`, `resolve_field` (including dotted
multi-hop specs expanded as a cartesian product), and `resolve_structure`.
Python dictionaries are modelled as association lists whose order is the
iteration order; Python `ValueError` raises become an explicit error type;
string splitting on a dot mirrors Python's `str.split('.')`.
-/

namespace SgSchema

/-- Modelled from the spec: the repository's `Entity` class (file
`sgschema/entity.py` is not part of the provided sources).  Per the spec's
data model and external-interface sections, an entity exposes `fields`
(presence-only mapping of physical field names), `field_aliases`
(alias to canonical field name) and `field_tags` (tag to ordered list of
field names), which is exactly what the resolution engine consults. -/
structure Entity where
  fields : List String
  field_aliases : List (String × String)
  field_tags : List (String × List String)
deriving DecidableEq, Repr

/-- The schema store: `entities`, `entity_aliases` and `entity_tags`,
as read by the resolution methods of `schema.py`. -/
structure Schema where
  entities : List (String × Entity)
  entity_aliases : List (String × String)
  entity_tags : List (String × List String)
deriving DecidableEq, Repr

/-- Errors raised by the resolution engine.  Each constructor corresponds to
one `raise` site in `schema.py` (all are `ValueError` in Python; an empty
spec would hit `spec[0]` and raise `IndexError`). -/
inductive SgError where
  /-- Python `IndexError` from indexing `spec[0]` of an empty spec. -/
  | indexError : SgError
  /-- From `resolve_entity`: "unknown entity operation for ...". -/
  | invalidEntityOp : String → SgError
  /-- From "... is not an entity type": raised by `resolve_entity` in strict
  mode and unconditionally by `_resolve_field` for an unknown entity type. -/
  | notAnEntityType : String → SgError
  /-- From `_resolve_field`: "unknown field operation for ...". -/
  | invalidFieldOp : String → String → SgError
  /-- From `_resolve_field` in strict mode: "... is not a field of ...". -/
  | notAField : String → String → SgError
deriving DecidableEq, Repr

instance {ε α : Type} [DecidableEq ε] [DecidableEq α] : DecidableEq (Except ε α) := fun a b =>
  match a, b with
  | .ok x, .ok y =>
    if h : x = y then .isTrue (by rw [h]) else .isFalse (by simp [h])
  | .error x, .error y =>
    if h : x = y then .isTrue (by rw [h]) else .isFalse (by simp [h])
  | .ok _, .error _ => .isFalse (by simp)
  | .error _, .ok _ => .isFalse (by simp)

/-- Mirror of Python's `str.split('.')` at the level of character lists:
split on every dot, keeping empty pieces. -/
def splitDotAux : List Char → List Char → List (List Char)
  | [], acc => [acc.reverse]
  | c :: rest, acc =>
    if c = '.' then acc.reverse :: splitDotAux rest [] else splitDotAux rest (c :: acc)

/-- Python's `field_spec.split('.')`. -/
def pySplit (s : String) : List String :=
  (splitDotAux s.data []).map String.mk

/-- Embedding of `Schema.resolve_entity` (schema.py lines 210-235). -/
def Schema.resolve_entity (s : Schema) (entity_spec : String)
    (implicit_aliases strict : Bool) : Except SgError (List String) :=
  match entity_spec.data with
  | [] => .error .indexError
  | op :: rest =>
    if op = '!' then .ok [String.mk rest]
    else if op = '#' then .ok ((s.entity_tags.lookup (String.mk rest)).getD [])
    else if op = '$' then
      match s.entity_aliases.lookup (String.mk rest) with
      | some e => .ok [e]
      | none => .ok []
    else if ¬ op.isAlphanum then .error (.invalidEntityOp entity_spec)
    else if (s.entities.lookup entity_spec).isSome then .ok [entity_spec]
    else if implicit_aliases then
      match s.entity_aliases.lookup entity_spec with
      | some e => .ok [e]
      | none =>
        if strict then .error (.notAnEntityType entity_spec) else .ok [entity_spec]
    else if strict then .error (.notAnEntityType entity_spec)
    else .ok [entity_spec]

/-- Embedding of `Schema._resolve_field` (schema.py lines 244-288): single
field spec resolved against one concrete entity type. -/
def Schema._resolve_field (s : Schema) (entity_spec field_spec : String)
    ( auto_prefix implicit_aliases strict : Bool) : Except SgError (List String) :=
  match s.entities.lookup entity_spec with
  | none => .error (.notAnEntityType entity_spec)
  | some entity =>
    if field_spec = "id" ∨ field_spec = "type" then .ok [field_spec]
    else match field_spec.data with
    | [] => .error .indexError
    | op :: rest =>
      if op = '!' then .ok [String.mk rest]
      else if op = '#' then .ok ((entity.field_tags.lookup (String.mk rest)).getD [])
      else if op = '$' then
        match entity.field_aliases.lookup (String.mk rest) with
        | some f => .ok [f]
        | none => .ok [field_spec]
      else if ¬ op.isAlphanum then .error (.invalidFieldOp entity_spec field_spec)
      else if entity.fields.contains field_spec then .ok [field_spec]
      else if auto_prefix && entity.fields.contains ("sg_" ++ field_spec) then
        .ok ["sg_" ++ field_spec]
      else if implicit_aliases then
        match entity.field_aliases.lookup field_spec with
        | some f => .ok [f]
        | none =>
          if strict then .error (.notAField field_spec entity_spec) else .ok [field_spec]
      else if strict then .error (.notAField field_spec entity_spec)
      else .ok [field_spec]

/-- Embedding of the pairing comprehension of `resolve_field` (schema.py
lines 306-307): tokens at even indices are field specs, each paired with the
token just before it as entity spec; the first pair's entity spec is the
caller-supplied root entity type. -/
def specPairs (entity_type : String) (spec_parts : List String) : List (String × String) :=
  (List.range spec_parts.length).filterMap fun i =>
    if i % 2 = 0 then
      some ((if i = 0 then entity_type else spec_parts.getD (i - 1) ""), spec_parts.getD i "")
    else none

/-- Embedding of the per-hop resolution loops of `resolve_field` (schema.py
lines 310-318), with the same append order as the imperative code. -/
def Schema.resolvedPairSets (s : Schema) (spec_pairs : List (String × String))
    ( auto_prefix implicit_aliases strict : Bool) :
    Except SgError (List (List (String × String))) :=
  spec_pairs.foldlM
    (fun sets pair => do
      let entity_types ← s.resolve_entity pair.1 implicit_aliases strict
      let resolved_pairs ← entity_types.foldlM
        (fun acc entity_type => do
          let field_names ← s._resolve_field entity_type pair.2 auto_prefix implicit_aliases strict
          pure (acc ++ field_names.map fun fn => (entity_type, fn)))
        []
      pure (sets ++ [resolved_pairs]))
    []

/-- Embedding of `itertools.product` over a list of candidate lists: the
first list varies slowest, matching Python's iteration order. -/
def itproduct {α : Type} : List (List α) → List (List α)
  | [] => [[]]
  | l :: ls => l.flatMap fun x => (itproduct ls).map fun xs => x :: xs

/-- Embedding of the path rendering of `resolve_field` (schema.py line 323):
the hop at index 0 contributes only its field name, every later hop
contributes `entity_type ++ "." ++ field_name`, joined with dots. -/
def renderField (pairs : List (String × String)) : String :=
  String.intercalate "." (pairs.enum.map fun ip =>
    (if ip.1 = 0 then "" else ip.2.1 ++ ".") ++ ip.2.2)

/-- Embedding of `Schema.resolve_field` (schema.py lines 290-325) for a
single string spec: one-token specs go straight to `_resolve_field`;
dotted specs are paired into hops, each hop resolved into candidate
`(entity_type, field_name)` pairs, and the cartesian product rendered. -/
def Schema.resolve_field (s : Schema) (entity_type field_spec : String)
    ( auto_prefix implicit_aliases strict : Bool) : Except SgError (List String) :=
  let spec_parts := pySplit field_spec
  if spec_parts.length = 1 then
    s._resolve_field entity_type field_spec auto_prefix implicit_aliases strict
  else do
    let sets ← s.resolvedPairSets (specPairs entity_type spec_parts)
      auto_prefix implicit_aliases strict
    pure ((itproduct sets).map renderField)

end SgSchema


namespace SgSchema

/-- Values of the nested structures fed to `resolve_structure`: scalars
(strings and integers suffice to exercise every branch), sequences, and
string-keyed mappings in iteration order. -/
inductive SgValue where
  | int : Int → SgValue
  | str : String → SgValue
  | list : List SgValue → SgValue
  | dict : List (String × SgValue) → SgValue
deriving Repr

/-- Python `dict` assignment `d[k] = v` on an association list: replace the
value at an existing key in place, else append the new binding. -/
def dictInsert : List (String × SgValue) → String → SgValue → List (String × SgValue)
  | [], k, v => [(k, v)]
  | (k', v') :: rest, k, v =>
    if k' = k then (k, v) :: rest else (k', v') :: dictInsert rest k v

/-- Python `x.get('type')` filtered by truthiness and usability as an entity
type name: only a non-empty string value counts (any other value either is
falsy or cannot match a key of `entities`). -/
def dictType (kvs : List (String × SgValue)) : Option String :=
  match kvs.lookup "type" with
  | some (.str e) => if e = "" then none else some e
  | _ => none

/-- Python `entity_type = entity_type or x.get('type')` (schema.py line 340):
a truthy caller-supplied entity type wins, else the mapping's own `type`. -/
def effectiveType (entity_type : Option String) (kvs : List (String × SgValue)) : Option String :=
  match entity_type with
  | some e => if e = "" then dictType kvs else some e
  | none => dictType kvs

mutual

/-- Embedding of `Schema.resolve_structure` (schema.py lines 334-355).
Sequences recurse elementwise with the caller's options; a mapping whose
effective type names a known entity is rewritten key-by-key (values recurse
with the DEFAULT options and no entity type, per line 344); any other
mapping keeps its keys and recurses into values; scalars pass through. -/
def Schema.resolve_structure (s : Schema) (x : SgValue) (entity_type : Option String)
    ( auto_prefix implicit_aliases strict : Bool) : Except SgError SgValue :=
  match x with
  | .int n => .ok (.int n)
  | .str v => .ok (.str v)
  | .list xs =>
    (Schema.resolve_structure_list s xs auto_prefix implicit_aliases strict).map .list
  | .dict kvs =>
    match effectiveType entity_type kvs with
    | some e =>
      if (s.entities.lookup e).isSome then
        (Schema.resolve_structure_items s e kvs [] auto_prefix implicit_aliases strict).map .dict
      else
        (Schema.resolve_structure_plain s kvs auto_prefix implicit_aliases strict).map .dict
    | none =>
      (Schema.resolve_structure_plain s kvs auto_prefix implicit_aliases strict).map .dict

/-- The list comprehension of schema.py line 337: each element rewritten
with the caller's options and no entity type. -/
def Schema.resolve_structure_list (s : Schema) (xs : List SgValue)
    ( auto_prefix implicit_aliases strict : Bool) : Except SgError (List SgValue) :=
  match xs with
  | [] => .ok []
  | v :: rest => do
    let v' ← Schema.resolve_structure s v none auto_prefix implicit_aliases strict
    let rest' ← Schema.resolve_structure_list s rest auto_prefix implicit_aliases strict
    .ok ((v' : SgValue) :: rest')

/-- The dict comprehension of schema.py lines 349-352: keys pass through,
values rewritten with the caller's options and no entity type. -/
def Schema.resolve_structure_plain (s : Schema) (kvs : List (String × SgValue))
    ( auto_prefix implicit_aliases strict : Bool) : Except SgError (List (String × SgValue)) :=
  match kvs with
  | [] => .ok []
  | (k, v) :: rest => do
    let v' ← Schema.resolve_structure s v none auto_prefix implicit_aliases strict
    let rest' ← Schema.resolve_structure_plain s rest auto_prefix implicit_aliases strict
    .ok ((k, (v' : SgValue)) :: rest')

/-- The entity-record loop of schema.py lines 342-347: each value is
rewritten by `self.resolve_structure(value)` with every argument at its
default, then the key is resolved with the CALLER's options and the
rewritten value stored under every resolved name. -/
def Schema.resolve_structure_items (s : Schema) (e : String)
    (kvs acc : List (String × SgValue))
    ( auto_prefix implicit_aliases strict : Bool) : Except SgError (List (String × SgValue)) :=
  match kvs with
  | [] => .ok acc
  | (k, v) :: rest => do
    let v' ← Schema.resolve_structure s v none true true false
    let fields ← s.resolve_field e k auto_prefix implicit_aliases strict
    Schema.resolve_structure_items s e rest
      (fields.foldl (fun a f => dictInsert a f (v' : SgValue)) acc)
      auto_prefix implicit_aliases strict

end

/-- A Bool test that the first character of a spec exists and is
alphanumeric, so that no sigil branch of the resolvers applies. -/
def headAlnum (s : String) : Bool :=
  match s.data with
  | [] => false
  | c :: _ => c.isAlphanum

/-- Distinctness of the keys of an association list, as a Python dict
guarantees for its own items. -/
def nodupKeys : List (String × SgValue) → Bool
  | [] => true
  | (k, _) :: rest => !((rest.map Prod.fst).contains k) && nodupKeys rest

/-- A key that is already a canonical physical field name of the entity, in
the sense needed for rewriting to leave it alone: the structural names `id`
and `type`, or an undotted, sigil-free name listed in the entity's
`fields`. -/
def canonicalKey (ent : Entity) (k : String) : Bool :=
  k = "id" || k = "type" || (pySplit k = [k] && headAlnum k && ent.fields.contains k)

mutual

/-- Every mapping key that `resolve_structure` would resolve against an
entity type (with no caller-supplied entity type) is already a canonical
physical field name of that entity type, and every such mapping has
distinct keys, as a Python dict does. -/
def keysCanonical (s : Schema) : SgValue → Bool
  | .int _ => true
  | .str _ => true
  | .list xs => keysCanonicalList s xs
  | .dict kvs =>
    keysCanonicalVals s kvs &&
    (match dictType kvs with
     | some e =>
       match s.entities.lookup e with
       | some ent => nodupKeys kvs && kvs.all fun kv => canonicalKey ent kv.1
       | none => true
     | none => true)

def keysCanonicalList (s : Schema) : List SgValue → Bool
  | [] => true
  | v :: rest => keysCanonical s v && keysCanonicalList s rest

def keysCanonicalVals (s : Schema) : List (String × SgValue) → Bool
  | [] => true
  | (_, v) :: rest => keysCanonical s v && keysCanonicalVals s rest

end

end SgSchema

namespace SgSchema

/-- Statement of the spec (refinement target for the dotted product): the
cartesian product across hops with the first hop varying slowest, written
as a right fold. -/
def productSpec {α : Type} (ls : List (List α)) : List (List α) :=
  ls.foldr (fun l acc => l.flatMap fun x => acc.map fun xs => x :: xs) [[]]

/-- Statement of the spec (refinement target for path rendering): the first
hop contributes only its field name, every subsequent hop contributes
`entity_type ++ "." ++ field_name`, and the segments are joined with a
dot. -/
def renderSpecPath : List (String × String) → String
  | [] => ""
  | (_, fn) :: rest => String.intercalate "." (fn :: rest.map fun p => p.1 ++ "." ++ p.2)

/-- Statement of the spec (refinement target for one hop): resolve the
entity spec into candidate entity types, resolve the field spec against
each candidate, and collect the `(entity_type, field_name)` pairs with the
outer loop over entity candidates and the inner loop over field
candidates. -/
def Schema.hopPairsSpec (s : Schema) (entity_spec field_spec : String)
    ( auto_prefix implicit_aliases strict : Bool) : Except SgError (List (String × String)) := do
  let entity_types ← s.resolve_entity entity_spec implicit_aliases strict
  let lists ← entity_types.mapM fun entity_type => do
    let field_names ← s._resolve_field entity_type field_spec auto_prefix implicit_aliases strict
    pure (field_names.map fun fn => (entity_type, fn))
  pure lists.flatten

/-- An entity with no fields, aliases or tags. -/
def demoBare : Entity := { fields := [], field_aliases := [], field_tags := [] }

/-- Entity `B` of the dotted-product example: field spec "field" resolves
to "x" through an alias. -/
def demoB : Entity := { fields := ["x"], field_aliases := [("field", "x")], field_tags := [] }

/-- Entity `C` of the dotted-product example: field spec "field" resolves
to "y" through an alias. -/
def demoC : Entity := { fields := ["y"], field_aliases := [("field", "y")], field_tags := [] }

/-- A `Shot` entity with the alias of the structure-rewriting example and a
prefixed field for the auto-prefix example. -/
def demoShot : Entity :=
  { fields := ["sg_status_list", "sg_foo"],
    field_aliases := [("sg_status", "sg_status_list")],
    field_tags := [] }

/-- The concrete store used by witnesses and counterexamples. -/
def demoSchema : Schema :=
  { entities := [("A", demoBare), ("B", demoB), ("C", demoC), ("Shot", demoShot)],
    entity_aliases := [("S", "Shot")],
    entity_tags := [("t", ["B", "C"])] }

/-- An entity whose field spec "code" is BOTH aliased and auto-prefixable:
the prefixed field `sg_code` exists while `code` also has an alias. -/
def demoAsset : Entity :=
  { fields := ["sg_code"],
    field_aliases := [("code", "somewhere_else")],
    field_tags := [] }

/-- A store exercising the precedence of the auto-prefix branch over the
implicit-alias lookup. -/
def demoSchema5 : Schema :=
  { entities := [("Asset", demoAsset)],
    entity_aliases := [],
    entity_tags := [] }

/-- The structural field "id" resolves to itself on any known entity. -/
theorem resolve_field_id (s : Schema) (E : String) (ent : Entity)
    (hE : s.entities.lookup E = some ent)
    ( auto_prefix implicit_aliases strict : Bool) :
    s.resolve_field E "id" auto_prefix implicit_aliases strict = .ok ["id"] := by
  have h1 : s.resolve_field E "id" auto_prefix implicit_aliases strict
      = s._resolve_field E "id" auto_prefix implicit_aliases strict := rfl
  rw [h1]
  simp [Schema._resolve_field, hE]

/-- The structural field "type" resolves to itself on any known entity. -/
theorem resolve_field_type (s : Schema) (E : String) (ent : Entity)
    (hE : s.entities.lookup E = some ent)
    ( auto_prefix implicit_aliases strict : Bool) :
    s.resolve_field E "type" auto_prefix implicit_aliases strict = .ok ["type"] := by
  have h1 : s.resolve_field E "type" auto_prefix implicit_aliases strict
      = s._resolve_field E "type" auto_prefix implicit_aliases strict := rfl
  rw [h1]
  simp [Schema._resolve_field, hE]

/-- C6: for every entity type present in the store, under every combination
of the options, `resolve_field` maps "id" to ["id"] and "type" to ["type"],
no matter what fields, aliases or tags the entity defines. -/
theorem claim_C6 (s : Schema) (E : String) (ent : Entity)
    (hE : s.entities.lookup E = some ent)
    ( auto_prefix implicit_aliases strict : Bool) :
    s.resolve_field E "id" auto_prefix implicit_aliases strict = .ok ["id"] ∧
    s.resolve_field E "type" auto_prefix implicit_aliases strict = .ok ["type"] :=
  ⟨resolve_field_id s E ent hE auto_prefix implicit_aliases strict,
   resolve_field_type s E ent hE auto_prefix implicit_aliases strict⟩

theorem claim_C6_witness :
    demoSchema.entities.lookup "Shot" = some demoShot ∧
    (demoSchema.resolve_field "Shot" "id" false true true = .ok ["id"] ∧
     demoSchema.resolve_field "Shot" "type" false true true = .ok ["type"]) :=
  ⟨by decide, claim_C6 demoSchema "Shot" demoShot (by decide) false true true⟩

/-- C7: when the entity type is absent from the store, `_resolve_field`
fails with the "not an entity type" error for every field spec and under
every combination of the options, before any of the field-spec grammar is
consulted. -/
theorem claim_C7 (s : Schema) (E field_spec : String)
    (hE : s.entities.lookup E = none)
    ( auto_prefix implicit_aliases strict : Bool) :
    s._resolve_field E field_spec auto_prefix implicit_aliases strict
      = .error (.notAnEntityType E) := by
  simp [Schema._resolve_field, hE]

theorem claim_C7_witness :
    demoSchema.entities.lookup "Nope" = none ∧
    demoSchema._resolve_field "Nope" "$weird.spec" false true false
      = .error (.notAnEntityType "Nope") :=
  ⟨by decide, claim_C7 demoSchema "Nope" "$weird.spec" (by decide) false true false⟩

end SgSchema

namespace SgSchema

theorem string_mk_data (s : String) : String.mk s.data = s := by
  cases s
  rfl

theorem data_dollar (A : String) : ("$" ++ A).data = '$' :: A.data := by
  cases A
  rfl

/-- C5: a sigil-free, undotted field spec that is not a field of the entity
but whose `sg_`-prefixed form is resolves to the prefixed name under
`auto_prefix` whatever the other options — even when the spec is also an
alias, since the prefix branch precedes the alias lookup — and passes
through unchanged with `auto_prefix` off, `strict` off and no alias for
it. -/
theorem claim_C5 (s : Schema) (E foo : String) (ent : Entity)
    (hE : s.entities.lookup E = some ent)
    (hid : foo ≠ "id") (htype : foo ≠ "type")
    (hsigil : headAlnum foo = true)
    (hsplit : pySplit foo = [foo])
    (hmiss : ent.fields.contains foo = false)
    (hsg : ent.fields.contains ("sg_" ++ foo) = true) :
    (∀ implicit_aliases strict,
        s.resolve_field E foo true implicit_aliases strict = .ok ["sg_" ++ foo]) ∧
    (ent.field_aliases.lookup foo = none →
      ∀ implicit_aliases,
        s.resolve_field E foo false implicit_aliases false = .ok [foo]) := by
  have hred : ∀ ap ia st, s.resolve_field E foo ap ia st = s._resolve_field E foo ap ia st := by
    intro ap ia st
    simp [Schema.resolve_field, hsplit]
  rcases hcd : foo.data with _ | ⟨c, cs⟩
  · simp [headAlnum, hcd] at hsigil
  · have hc : c.isAlphanum = true := by
      simpa [headAlnum, hcd] using hsigil
    have hne1 : ¬ (c = '!') := fun h => by subst h; exact absurd hc (by decide)
    have hne2 : ¬ (c = '#') := fun h => by subst h; exact absurd hc (by decide)
    have hne3 : ¬ (c = '$') := fun h => by subst h; exact absurd hc (by decide)
    have hmiss' : ¬ (foo ∈ ent.fields) := by simpa using hmiss
    have hsg' : ("sg_" ++ foo) ∈ ent.fields := by simpa using hsg
    constructor
    · intro implicit_aliases strict
      rw [hred]
      simp [Schema._resolve_field, hE, hid, htype, hcd, hne1, hne2, hne3, hc, hmiss', hsg']
    · intro halias implicit_aliases
      rw [hred]
      cases implicit_aliases <;>
        simp [Schema._resolve_field, hE, hid, htype, hcd, hne1, hne2, hne3, hc, hmiss', halias]

theorem claim_C5_witness :
    (demoSchema.entities.lookup "Shot" = some demoShot ∧
     demoShot.fields.contains "foo" = false ∧
     demoShot.fields.contains ("sg_" ++ "foo") = true ∧
     demoShot.field_aliases.lookup "foo" = none) ∧
    (demoSchema5.entities.lookup "Asset" = some demoAsset ∧
     demoAsset.fields.contains "code" = false ∧
     demoAsset.fields.contains ("sg_" ++ "code") = true ∧
     demoAsset.field_aliases.lookup "code" = some "somewhere_else") ∧
    demoSchema.resolve_field "Shot" "foo" true false true = .ok ["sg_" ++ "foo"] ∧
    demoSchema.resolve_field "Shot" "foo" false true false = .ok ["foo"] ∧
    demoSchema5.resolve_field "Asset" "code" true true true = .ok ["sg_" ++ "code"] :=
  ⟨⟨by decide, by decide, by decide, by decide⟩,
   ⟨by decide, by decide, by decide, by decide⟩,
   (claim_C5 demoSchema "Shot" "foo" demoShot (by decide) (by decide) (by decide)
      (by decide) (by decide) (by decide) (by decide)).1 false true,
   (claim_C5 demoSchema "Shot" "foo" demoShot (by decide) (by decide) (by decide)
      (by decide) (by decide) (by decide) (by decide)).2 (by decide) true,
   (claim_C5 demoSchema5 "Asset" "code" demoAsset (by decide) (by decide) (by decide)
      (by decide) (by decide) (by decide) (by decide)).1 true true⟩

/-- C4 as stated is false on the field side: an alias-sigil miss passes the
WHOLE spec through, sigil included, so `_resolve_field` returns ["$zzz"],
not ["zzz"]. -/
theorem claim_C4_counterexample :
    demoSchema._resolve_field "Shot" "$zzz" true true false = .ok ["$zzz"] ∧
    (["$zzz"] : List String) ≠ ["zzz"] := by
  decide

/-- C4 (amended): an entity-alias miss yields the empty list, while a
field-alias miss passes the full spec `"$" ++ A` through unchanged (sigil
included) as a single-element list. -/
theorem claim_C4 (s : Schema) (A E : String) (ent : Entity)
    (halias : s.entity_aliases.lookup A = none)
    (hE : s.entities.lookup E = some ent)
    (hfalias : ent.field_aliases.lookup A = none)
    ( auto_prefix implicit_aliases strict : Bool) :
    s.resolve_entity ("$" ++ A) implicit_aliases strict = .ok [] ∧
    s._resolve_field E ("$" ++ A) auto_prefix implicit_aliases strict = .ok ["$" ++ A] := by
  have hd : ("$" ++ A).data = '$' :: A.data := data_dollar A
  have h1 : ("$" ++ A) ≠ "id" := by
    intro h
    have := congrArg String.data h
    rw [hd] at this
    simp at this
  have h2 : ("$" ++ A) ≠ "type" := by
    intro h
    have := congrArg String.data h
    rw [hd] at this
    simp at this
  constructor
  · simp [Schema.resolve_entity, hd, string_mk_data, halias]
  · simp [Schema._resolve_field, hE, h1, h2, hd, string_mk_data, hfalias]

theorem claim_C4_witness :
    (demoSchema.entity_aliases.lookup "zzz" = none ∧
     demoSchema.entities.lookup "Shot" = some demoShot ∧
     demoShot.field_aliases.lookup "zzz" = none) ∧
    demoSchema.resolve_entity ("$" ++ "zzz") true false = .ok [] ∧
    demoSchema._resolve_field "Shot" ("$" ++ "zzz") true true false = .ok ["$" ++ "zzz"] :=
  ⟨⟨by decide, by decide, by decide⟩,
   claim_C4 demoSchema "zzz" "Shot" demoShot (by decide) (by decide) (by decide) true true false⟩

/-- The dotted pairing only reads tokens at even indices and the token just
before each of them, so with an even token count the final token is never
read. -/
theorem specPairs_append_last (root : String) (parts : List String) (t t' : String)
    (hodd : parts.length % 2 = 1) :
    specPairs root (parts ++ [t]) = specPairs root (parts ++ [t']) := by
  unfold specPairs
  have hlen : (parts ++ [t]).length = parts.length + 1 := by simp
  have hlen' : (parts ++ [t']).length = parts.length + 1 := by simp
  rw [hlen, hlen']
  apply List.filterMap_congr
  intro i hi
  have hi' : i < parts.length + 1 := List.mem_range.mp hi
  by_cases he : i % 2 = 0
  · have hine : i ≠ parts.length := by
      intro h
      rw [h] at he
      omega
    have hilt : i < parts.length := by omega
    have g1 : (parts ++ [t]).getD i "" = parts.getD i "" := List.getD_append parts [t] "" i hilt
    have g2 : (parts ++ [t']).getD i "" = parts.getD i "" := List.getD_append parts [t'] "" i hilt
    rw [if_pos he, if_pos he]
    by_cases hz : i = 0
    · subst hz
      rw [if_pos rfl, if_pos rfl, g1, g2]
    · have hp : i - 1 < parts.length := by omega
      have g3 : (parts ++ [t]).getD (i - 1) "" = parts.getD (i - 1) "" :=
        List.getD_append parts [t] "" (i - 1) hp
      have g4 : (parts ++ [t']).getD (i - 1) "" = parts.getD (i - 1) "" :=
        List.getD_append parts [t'] "" (i - 1) hp
      rw [if_neg hz, if_neg hz, g1, g2, g3, g4]
  · rw [if_neg he, if_neg he]

/-- C9: a dotted field spec splitting into an even number of tokens ignores
its final token: two specs whose splits agree except in the final token
resolve identically under every option combination. -/
theorem claim_C9 (s : Schema) (root spec1 spec2 : String) (parts : List String) (t1 t2 : String)
    ( auto_prefix implicit_aliases strict : Bool)
    (h1 : pySplit spec1 = parts ++ [t1]) (h2 : pySplit spec2 = parts ++ [t2])
    (hodd : parts.length % 2 = 1) :
    s.resolve_field root spec1 auto_prefix implicit_aliases strict
      = s.resolve_field root spec2 auto_prefix implicit_aliases strict := by
  have hne : ¬ ((parts ++ [t1]).length = 1) := by
    simp only [List.length_append, List.length_cons, List.length_nil]
    omega
  have hne' : ¬ ((parts ++ [t2]).length = 1) := by
    simp only [List.length_append, List.length_cons, List.length_nil]
    omega
  simp only [Schema.resolve_field, h1, h2]
  rw [if_neg hne, if_neg hne', specPairs_append_last root parts t1 t2 hodd]

theorem claim_C9_witness :
    (pySplit "a.b" = ["a"] ++ ["b"] ∧ pySplit "a.c" = ["a"] ++ ["c"] ∧
     (["a"] : List String).length % 2 = 1) ∧
    demoSchema.resolve_field "A" "a.b" true true false
      = demoSchema.resolve_field "A" "a.c" true true false :=
  ⟨⟨by decide, by decide, by decide⟩,
   claim_C9 demoSchema "A" "a.b" "a.c" ["a"] "b" "c" true true false
     (by decide) (by decide) (by decide)⟩

end SgSchema

namespace SgSchema

theorem except_bind_ok {ε α β : Type} (a : α) (f : α → Except ε β) :
    ((Except.ok a : Except ε α) >>= f) = f a := rfl

theorem except_bind_error {ε α β : Type} (e : ε) (f : α → Except ε β) :
    ((Except.error e : Except ε α) >>= f) = .error e := rfl

theorem except_map_ok {ε α β : Type} (a : α) (f : α → β) :
    ((Except.ok a : Except ε α).map f) = .ok (f a) := rfl

theorem except_map_error {ε α β : Type} (e : ε) (f : α → β) :
    ((Except.error e : Except ε α).map f) = .error e := rfl

/-- A spec that is itself a known entity type resolves to the singleton of
itself: the exact name beats aliases (schema.py lines 225-227). -/
theorem resolve_entity_known (s : Schema) (E : String)
    (hknown : (s.entities.lookup E).isSome = true)
    (hsigil : headAlnum E = true) (implicit_aliases strict : Bool) :
    s.resolve_entity E implicit_aliases strict = .ok [E] := by
  rcases hcd : E.data with _ | ⟨c, cs⟩
  · simp [headAlnum, hcd] at hsigil
  · have hc : c.isAlphanum = true := by simpa [headAlnum, hcd] using hsigil
    have hne1 : ¬ (c = '!') := fun h => by subst h; exact absurd hc (by decide)
    have hne2 : ¬ (c = '#') := fun h => by subst h; exact absurd hc (by decide)
    have hne3 : ¬ (c = '$') := fun h => by subst h; exact absurd hc (by decide)
    simp [Schema.resolve_entity, hcd, hne1, hne2, hne3, hc, hknown]

/-- C1 as stated is false: the first hop of `"A.#t.field"` pairs the root
entity type with the token `"A"` as a FIELD spec, so every produced path
carries a leading segment for that hop; the result is
`["A.B.x", "A.C.y"]`, not `["B.x", "C.y"]`. -/
theorem claim_C1_counterexample :
    demoSchema.resolve_field "A" "A.#t.field" true true false = .ok ["A.B.x", "A.C.y"] ∧
    Except.ok ["A.B.x", "A.C.y"] ≠ (.ok ["B.x", "C.y"] : Except SgError (List String)) := by
  decide

/-- C1 (amended): with root entity type `A` known, tag `t` mapping to
`[B, C]`, field spec `"field"` resolving to `x` on `B` and to `y` on `C`,
and the extra first-hop fact that the token `"A"` resolves as a field spec
on `A` to itself, resolving `"A.#t.field"` from `A` yields
`["A.B.x", "A.C.y"]`, in tag order. -/
theorem claim_C1 (s : Schema)
    (hA : (s.entities.lookup "A").isSome = true)
    (hfirst : s._resolve_field "A" "A" true true false = .ok ["A"])
    (htag : s.entity_tags.lookup "t" = some ["B", "C"])
    (hB : s._resolve_field "B" "field" true true false = .ok ["x"])
    (hC : s._resolve_field "C" "field" true true false = .ok ["y"]) :
    s.resolve_field "A" "A.#t.field" true true false = .ok ["A.B.x", "A.C.y"] := by
  have hEA : s.resolve_entity "A" true false = .ok ["A"] :=
    resolve_entity_known s "A" hA (by decide) true false
  have hET : s.resolve_entity "#t" true false = .ok ["B", "C"] := by
    simp [Schema.resolve_entity, show ("#t" : String).data = ['#', 't'] from rfl,
      show String.mk ['t'] = "t" from rfl, htag]
  have hsplit : pySplit "A.#t.field" = ["A", "#t", "field"] := by decide
  have hpairs : specPairs "A" ["A", "#t", "field"] = [("A", "A"), ("#t", "field")] := by decide
  simp only [Schema.resolve_field, hsplit]
  rw [if_neg (by decide : ¬ ((["A", "#t", "field"] : List String).length = 1))]
  rw [hpairs]
  simp only [Schema.resolvedPairSets, List.foldlM_cons, List.foldlM_nil, hEA, hET,
    except_bind_ok, hfirst, hB, hC]
  decide

theorem claim_C1_witness :
    ((demoSchema.entities.lookup "A").isSome = true ∧
     demoSchema._resolve_field "A" "A" true true false = .ok ["A"] ∧
     demoSchema.entity_tags.lookup "t" = some ["B", "C"] ∧
     demoSchema._resolve_field "B" "field" true true false = .ok ["x"] ∧
     demoSchema._resolve_field "C" "field" true true false = .ok ["y"]) ∧
    demoSchema.resolve_field "A" "A.#t.field" true true false = .ok ["A.B.x", "A.C.y"] :=
  ⟨⟨by decide, by decide, by decide, by decide, by decide⟩,
   claim_C1 demoSchema (by decide) (by decide) (by decide) (by decide) (by decide)⟩

end SgSchema

namespace SgSchema

/-- C3 as stated is false: the entity-record loop of `resolve_structure`
iterates over ALL keys, including "type", which resolves to itself; the
output therefore keeps the `type` entry, while the claimed output
`{"sg_status_list": "ip"}` has no `type` key at all. -/
theorem claim_C3_counterexample :
    demoSchema.resolve_structure (.dict [("type", .str "Shot"), ("sg_status", .str "ip")])
        none true true false
      = .ok (.dict [("type", .str "Shot"), ("sg_status_list", .str "ip")]) ∧
    ([("type", SgValue.str "Shot"), ("sg_status_list", SgValue.str "ip")]).lookup "type"
      = some (SgValue.str "Shot") ∧
    ([("sg_status_list", SgValue.str "ip")] : List (String × SgValue)).lookup "type" = none :=
  ⟨rfl, rfl, rfl⟩

/-- C3 (amended): with `Shot` known, `sg_status` aliased to
`sg_status_list`, and neither `sg_status` nor `sg_sg_status` a field of
`Shot`, rewriting `{"type": "Shot", "sg_status": "ip"}` with the default
options yields `{"type": "Shot", "sg_status_list": "ip"}` — the alias key
is rewritten and the `type` entry is kept. -/
theorem claim_C3 (s : Schema) (ent : Entity)
    (hS : s.entities.lookup "Shot" = some ent)
    (ha : ent.field_aliases.lookup "sg_status" = some "sg_status_list")
    (hf1 : ent.fields.contains "sg_status" = false)
    (hf2 : ent.fields.contains "sg_sg_status" = false) :
    s.resolve_structure (.dict [("type", .str "Shot"), ("sg_status", .str "ip")])
        none true true false
      = .ok (.dict [("type", .str "Shot"), ("sg_status_list", .str "ip")]) := by
  have htype : s.resolve_field "Shot" "type" true true false = .ok ["type"] :=
    resolve_field_type s "Shot" ent hS true true false
  have hkey : s.resolve_field "Shot" "sg_status" true true false = .ok ["sg_status_list"] := by
    have hred : s.resolve_field "Shot" "sg_status" true true false
        = s._resolve_field "Shot" "sg_status" true true false := rfl
    have hmiss1 : ¬ (("sg_status" : String) ∈ ent.fields) := by simpa using hf1
    have hmiss2 : ¬ (("sg_sg_status" : String) ∈ ent.fields) := by simpa using hf2
    rw [hred]
    simp [Schema._resolve_field, hS, ha, hmiss1, hmiss2,
      show ("sg_status" : String).data = ['s', 'g', '_', 's', 't', 'a', 't', 'u', 's'] from rfl,
      show ("sg_" ++ "sg_status" : String) = "sg_sg_status" from rfl]
  simp only [Schema.resolve_structure,
    show effectiveType none [("type", SgValue.str "Shot"), ("sg_status", SgValue.str "ip")]
        = some "Shot" from rfl,
    hS, Option.isSome_some, if_true]
  simp only [Schema.resolve_structure_items, Schema.resolve_structure, except_bind_ok,
    htype, hkey, List.foldl, dictInsert, except_map_ok]
  rfl

theorem claim_C3_witness :
    (demoSchema.entities.lookup "Shot" = some demoShot ∧
     demoShot.field_aliases.lookup "sg_status" = some "sg_status_list" ∧
     demoShot.fields.contains "sg_status" = false ∧
     demoShot.fields.contains "sg_sg_status" = false) ∧
    demoSchema.resolve_structure (.dict [("type", .str "Shot"), ("sg_status", .str "ip")])
        none true true false
      = .ok (.dict [("type", .str "Shot"), ("sg_status_list", .str "ip")]) :=
  ⟨⟨by decide, by decide, by decide, by decide⟩,
   claim_C3 demoSchema demoShot (by decide) (by decide) (by decide) (by decide)⟩

end SgSchema

namespace SgSchema

/-- The entity-record loop depends on the caller's options only through the
resolution of the keys: values are always rewritten with the hard-coded
default options, so two option triples that resolve every key identically
give identical results. -/
theorem items_opts_agree (s : Schema) (e : String) (ap ia st ap' ia' st' : Bool) :
    ∀ (kvs acc : List (String × SgValue)),
      (∀ kv ∈ kvs, s.resolve_field e kv.1 ap ia st = s.resolve_field e kv.1 ap' ia' st') →
      Schema.resolve_structure_items s e kvs acc ap ia st
        = Schema.resolve_structure_items s e kvs acc ap' ia' st' := by
  intro kvs
  induction kvs with
  | nil =>
    intro acc h
    rfl
  | cons kv rest ih =>
    intro acc h
    obtain ⟨k, v⟩ := kv
    simp only [Schema.resolve_structure_items]
    have hk := h (k, v) (by simp)
    rw [hk]
    cases hv : Schema.resolve_structure s v none true true false with
    | error err => rw [except_bind_error, except_bind_error]
    | ok v' =>
      rw [except_bind_ok, except_bind_ok]
      cases hf : s.resolve_field e k ap' ia' st' with
      | error err => rw [except_bind_error, except_bind_error]
      | ok fields =>
        rw [except_bind_ok, except_bind_ok]
        exact ih _ fun kv hm => h kv (by simp [hm])

/-- C10: when `resolve_structure` rewrites a mapping recognized as an entity
record, the caller-supplied options influence only the key resolutions:
whenever two option triples resolve every key of the record identically,
the whole results coincide — in particular the caller's options never reach
the values, which are rewritten with the defaults. -/
theorem claim_C10 (s : Schema) (kvs : List (String × SgValue)) (e : String)
    (he : effectiveType none kvs = some e)
    (hk : (s.entities.lookup e).isSome = true)
    (ap ia st ap' ia' st' : Bool)
    (hkeys : ∀ kv ∈ kvs, s.resolve_field e kv.1 ap ia st = s.resolve_field e kv.1 ap' ia' st') :
    s.resolve_structure (.dict kvs) none ap ia st
      = s.resolve_structure (.dict kvs) none ap' ia' st' := by
  simp only [Schema.resolve_structure, he, hk, if_true]
  rw [items_opts_agree s e ap ia st ap' ia' st' kvs [] hkeys]

theorem claim_C10_witness :
    (effectiveType none [("type", SgValue.str "Shot")] = some "Shot" ∧
     (demoSchema.entities.lookup "Shot").isSome = true) ∧
    demoSchema.resolve_structure (.dict [("type", SgValue.str "Shot")]) none true true false
      = demoSchema.resolve_structure (.dict [("type", SgValue.str "Shot")]) none false false true :=
  ⟨⟨rfl, by decide⟩,
   claim_C10 demoSchema [("type", SgValue.str "Shot")] "Shot" rfl (by decide)
     true true false false false true
     (by
       intro kv hm
       have h := List.mem_singleton.mp hm
       subst h
       rfl)⟩

end SgSchema

namespace SgSchema

theorem string_nil_append (s : String) : "" ++ s = s := by
  cases s
  rfl

theorem itproduct_eq_productSpec {α : Type} (ls : List (List α)) :
    itproduct ls = productSpec ls := by
  induction ls with
  | nil => rfl
  | cons l t ih =>
    have hps : productSpec (l :: t) = l.flatMap fun x => (productSpec t).map fun xs => x :: xs := rfl
    rw [itproduct, hps, ih]

theorem renderAux (rest : List (String × String)) :
    ∀ (n : Nat),
      (rest.enumFrom (n + 1)).map (fun ip => (if ip.1 = 0 then "" else ip.2.1 ++ ".") ++ ip.2.2)
        = rest.map fun p => p.1 ++ "." ++ p.2 := by
  induction rest with
  | nil =>
    intro n
    rfl
  | cons p t ih =>
    intro n
    simp only [List.enumFrom, List.map]
    rw [if_neg (by omega : ¬ (n + 1 = 0)), ih (n + 1)]

theorem renderField_eq (ps : List (String × String)) : renderField ps = renderSpecPath ps := by
  cases ps with
  | nil => rfl
  | cons p rest =>
    obtain ⟨e0, f0⟩ := p
    simp only [renderField, renderSpecPath, List.enum, List.enumFrom, List.map]
    rw [if_true, string_nil_append, renderAux rest 0]

theorem foldlM_nil' {m : Type → Type} [Monad m] {α β : Type} (f : β → α → m β) (b : β) :
    List.foldlM f b [] = pure b := rfl

theorem foldlM_cons' {m : Type → Type} [Monad m] {α β : Type} (f : β → α → m β) (b : β)
    (a : α) (l : List α) :
    List.foldlM f b (a :: l) = f b a >>= fun b' => List.foldlM f b' l := rfl

theorem except_pure_bind {ε α β : Type} (a : α) (f : α → Except ε β) :
    ((pure a : Except ε α) >>= f) = f a := rfl

theorem except_map_pure {ε α β : Type} (a : α) (f : α → β) :
    (Except.map f (pure a : Except ε α)) = .ok (f a) := rfl

theorem except_fmap_ok {ε α β : Type} (f : α → β) (a : α) :
    (f <$> (Except.ok a : Except ε α)) = .ok (f a) := rfl

theorem except_fmap_error {ε α β : Type} (f : α → β) (e : ε) :
    (f <$> (Except.error e : Except ε α)) = .error e := rfl

theorem except_fmap_pure {ε α β : Type} (f : α → β) (a : α) :
    (f <$> (pure a : Except ε α)) = .ok (f a) := rfl

theorem except_pure_eq_ok {ε α : Type} (a : α) : (pure a : Except ε α) = .ok a := rfl

/-- The imperative inner loop (append to an accumulator) is the flattened
per-entity candidate map. -/
theorem innerLoop_eq (s : Schema) (fs : String) ( auto_prefix implicit_aliases strict : Bool) :
    ∀ (ets : List String) (init : List (String × String)),
      ets.foldlM (fun acc entity_type => do
          let field_names ← s._resolve_field entity_type fs auto_prefix implicit_aliases strict
          pure (acc ++ field_names.map fun fn => (entity_type, fn))) init
        = (ets.mapM fun entity_type => do
            let field_names ← s._resolve_field entity_type fs auto_prefix implicit_aliases strict
            pure (field_names.map fun fn => (entity_type, fn))).map
            fun ls : List (List (String × String)) => init ++ ls.flatten := by
  intro ets
  induction ets with
  | nil =>
    intro init
    rw [foldlM_nil', List.mapM_nil, except_map_pure, List.flatten_nil, List.append_nil]
    rfl
  | cons et t ih =>
    intro init
    rw [foldlM_cons', List.mapM_cons]
    cases hf : s._resolve_field et fs auto_prefix implicit_aliases strict with
    | error e =>
      simp only [hf, except_bind_error, except_map_error]
    | ok fns =>
      simp only [hf, except_bind_ok, except_pure_bind, ih]
      cases hm : t.mapM fun entity_type => do
          let field_names ← s._resolve_field entity_type fs auto_prefix implicit_aliases strict
          pure (field_names.map fun fn => (entity_type, fn)) with
      | error e =>
        simp only [hm, except_map_error, except_bind_error]
      | ok ls =>
        simp only [hm, except_map_ok, except_bind_ok, except_pure_bind, except_map_pure,
          except_fmap_ok, except_fmap_error, except_fmap_pure]
        rw [List.flatten_cons, List.append_assoc]

/-- The imperative outer loop (append one resolved hop per pair) is the map
of the spec-side per-hop resolution. -/
theorem outerLoop_eq (s : Schema) ( auto_prefix implicit_aliases strict : Bool) :
    ∀ (spec_pairs : List (String × String)) (init : List (List (String × String))),
      spec_pairs.foldlM (fun sets pair => do
          let entity_types ← s.resolve_entity pair.1 implicit_aliases strict
          let resolved_pairs ← entity_types.foldlM
            (fun acc entity_type => do
              let field_names ← s._resolve_field entity_type pair.2 auto_prefix implicit_aliases strict
              pure (acc ++ field_names.map fun fn => (entity_type, fn)))
            []
          pure (sets ++ [resolved_pairs])) init
        = (spec_pairs.mapM fun p => s.hopPairsSpec p.1 p.2 auto_prefix implicit_aliases strict).map
            fun ls => init ++ ls := by
  intro spec_pairs
  induction spec_pairs with
  | nil =>
    intro init
    rw [foldlM_nil', List.mapM_nil, except_map_pure, List.append_nil]
    rfl
  | cons pair t ih =>
    intro init
    rw [foldlM_cons', List.mapM_cons]
    cases hre : s.resolve_entity pair.1 implicit_aliases strict with
    | error e =>
      have hhop : s.hopPairsSpec pair.1 pair.2 auto_prefix implicit_aliases strict = .error e := by
        simp only [Schema.hopPairsSpec, hre, except_bind_error]
      simp only [hre, except_bind_error, hhop, except_map_error]
    | ok ets =>
      simp only [hre, except_bind_ok]
      rw [innerLoop_eq s pair.2 auto_prefix implicit_aliases strict ets []]
      cases hm : ets.mapM fun entity_type => do
          let field_names ← s._resolve_field entity_type pair.2 auto_prefix implicit_aliases strict
          pure (field_names.map fun fn => (entity_type, fn)) with
      | error e =>
        have hhop : s.hopPairsSpec pair.1 pair.2 auto_prefix implicit_aliases strict = .error e := by
          simp only [Schema.hopPairsSpec, hre, except_bind_ok]
          rw [hm]
          simp only [except_bind_error]
        simp only [hm, except_map_error, except_bind_error, hhop]
      | ok ls =>
        have hhop : s.hopPairsSpec pair.1 pair.2 auto_prefix implicit_aliases strict
            = .ok ls.flatten := by
          simp only [Schema.hopPairsSpec, hre, except_bind_ok]
          rw [hm]
          simp only [except_bind_ok, except_pure_eq_ok]
        simp only [hm, except_map_ok, except_bind_ok, except_pure_bind, List.nil_append, ih, hhop]
        cases ht : t.mapM fun p => s.hopPairsSpec p.1 p.2 auto_prefix implicit_aliases strict with
        | error e =>
          simp only [ht, except_map_error, except_bind_error]
        | ok sets =>
          simp only [ht, except_map_ok, except_bind_ok, except_pure_bind, except_map_pure,
            except_pure_eq_ok, List.append_assoc, List.singleton_append]

/-- The source's per-hop pipeline equals the spec-side one, hop by hop. -/
theorem resolvedPairSets_eq_mapM (s : Schema) (spec_pairs : List (String × String))
    ( auto_prefix implicit_aliases strict : Bool) :
    s.resolvedPairSets spec_pairs auto_prefix implicit_aliases strict
      = spec_pairs.mapM fun p => s.hopPairsSpec p.1 p.2 auto_prefix implicit_aliases strict := by
  rw [Schema.resolvedPairSets, outerLoop_eq]
  cases h : spec_pairs.mapM fun p => s.hopPairsSpec p.1 p.2 auto_prefix implicit_aliases strict with
  | error e => rfl
  | ok sets =>
    simp only [except_map_ok, List.nil_append]

/-- C2: for a dotted spec with at least two hops, `resolve_field` returns
exactly the cartesian product across hops (first hop varying slowest) of
the per-hop candidate pairs (outer loop over entity candidates, inner loop
over field candidates), each combination rendered with the first hop
contributing only its field name and later hops contributing
`entity.field`, joined with dots, with no deduplication. -/
theorem claim_C2 (s : Schema) (root spec : String) ( auto_prefix implicit_aliases strict : Bool)
    (h : 3 ≤ (pySplit spec).length) :
    s.resolve_field root spec auto_prefix implicit_aliases strict
      = ((specPairs root (pySplit spec)).mapM fun p =>
            s.hopPairsSpec p.1 p.2 auto_prefix implicit_aliases strict).map
          fun sets => (productSpec sets).map renderSpecPath := by
  have hne : ¬ ((pySplit spec).length = 1) := by omega
  simp only [Schema.resolve_field]
  rw [if_neg hne, resolvedPairSets_eq_mapM]
  cases hm : (specPairs root (pySplit spec)).mapM fun p =>
      s.hopPairsSpec p.1 p.2 auto_prefix implicit_aliases strict with
  | error e =>
    simp only [hm, except_map_error, except_bind_error]
  | ok sets =>
    simp only [hm, except_map_ok, except_bind_ok]
    have hf : renderField = renderSpecPath := funext renderField_eq
    show Except.ok ((itproduct sets).map renderField) = _
    rw [itproduct_eq_productSpec, hf]

theorem claim_C2_witness :
    3 ≤ (pySplit "A.#t.field").length ∧
    demoSchema.resolve_field "A" "A.#t.field" true true false
      = ((specPairs "A" (pySplit "A.#t.field")).mapM fun p =>
            demoSchema.hopPairsSpec p.1 p.2 true true false).map
          fun sets => (productSpec sets).map renderSpecPath :=
  ⟨by decide, claim_C2 demoSchema "A" "A.#t.field" true true false (by decide)⟩

end SgSchema

namespace SgSchema

/-- A canonical key resolves to exactly itself under the default options:
`id`/`type` by the structural special case, and an undotted sigil-free
member of `fields` by the exact-name-wins branch. -/
theorem canonicalKey_resolve (s : Schema) (e k : String) (ent : Entity)
    (hE : s.entities.lookup e = some ent) (hc : canonicalKey ent k = true) :
    s.resolve_field e k true true false = .ok [k] := by
  simp only [canonicalKey, Bool.or_eq_true, Bool.and_eq_true, decide_eq_true_eq] at hc
  rcases hc with (h | h) | hc
  · subst h
    exact resolve_field_id s e ent hE true true false
  · subst h
    exact resolve_field_type s e ent hE true true false
  · obtain ⟨⟨hsplit, halnum⟩, hfield⟩ := hc
    have hred : s.resolve_field e k true true false = s._resolve_field e k true true false := by
      simp [Schema.resolve_field, hsplit]
    rw [hred]
    by_cases hid : k = "id"
    · subst hid
      simp [Schema._resolve_field, hE]
    · by_cases htype : k = "type"
      · subst htype
        simp [Schema._resolve_field, hE]
      · rcases hcd : k.data with _ | ⟨c, cs⟩
        · simp [headAlnum, hcd] at halnum
        · have hcal : c.isAlphanum = true := by simpa [headAlnum, hcd] using halnum
          have hne1 : ¬ (c = '!') := fun h => by subst h; exact absurd hcal (by decide)
          have hne2 : ¬ (c = '#') := fun h => by subst h; exact absurd hcal (by decide)
          have hne3 : ¬ (c = '$') := fun h => by subst h; exact absurd hcal (by decide)
          have hmem : k ∈ ent.fields := by simpa using hfield
          simp [Schema._resolve_field, hE, hid, htype, hcd, hne1, hne2, hne3, hcal, hmem]

/-- Inserting a fresh key into a Python dict appends the binding. -/
theorem dictInsert_append (acc : List (String × SgValue)) (k : String) (v : SgValue)
    (h : ∀ kv ∈ acc, kv.1 ≠ k) :
    dictInsert acc k v = acc ++ [(k, v)] := by
  induction acc with
  | nil => rfl
  | cons kv rest ih =>
    obtain ⟨k', v'⟩ := kv
    have hne : ¬ (k' = k) := h (k', v') (by simp)
    simp only [dictInsert]
    rw [if_neg hne, ih fun kv hm => h kv (by simp [hm])]
    rfl

mutual

/-- Under the default options, a structure all of whose entity-record keys
are already canonical is a fixed point of `resolve_structure`. -/
theorem resolve_canonical (s : Schema) : ∀ (x : SgValue), keysCanonical s x = true →
    s.resolve_structure x none true true false = .ok x
  | .int _, _ => rfl
  | .str _, _ => rfl
  | .list xs, h => by
    have hl : keysCanonicalList s xs = true := by simpa [keysCanonical] using h
    rw [Schema.resolve_structure, resolve_list_canonical s xs hl]
    rfl
  | .dict kvs, h => by
    have h' := h
    rw [keysCanonical] at h'
    rw [Schema.resolve_structure,
      show effectiveType none kvs = dictType kvs from rfl]
    cases hdt : dictType kvs with
    | none =>
      rw [hdt] at h'
      simp only [Bool.and_true] at h'
      show Except.map SgValue.dict (Schema.resolve_structure_plain s kvs true true false)
        = Except.ok (SgValue.dict kvs)
      rw [resolve_plain_canonical s kvs h']
      rfl
    | some e =>
      rw [hdt] at h'
      simp only [Bool.and_eq_true] at h'
      show (if (s.entities.lookup e).isSome = true then
          Except.map SgValue.dict (Schema.resolve_structure_items s e kvs [] true true false)
        else Except.map SgValue.dict (Schema.resolve_structure_plain s kvs true true false))
        = Except.ok (SgValue.dict kvs)
      cases hent : s.entities.lookup e with
      | none =>
        rw [if_neg (by simp [hent]), resolve_plain_canonical s kvs h'.1]
        rfl
      | some ent =>
        have h2 := h'.2
        rw [hent] at h2
        simp only [Bool.and_eq_true] at h2
        rw [if_pos (by simp [hent]),
          resolve_items_canonical s e ent hent kvs [] h'.1 h2.2 h2.1
            (fun kv hm => absurd hm (List.not_mem_nil kv))]
        rfl

theorem resolve_list_canonical (s : Schema) : ∀ (xs : List SgValue),
    keysCanonicalList s xs = true →
    Schema.resolve_structure_list s xs true true false = .ok xs
  | [], _ => rfl
  | v :: rest, h => by
    simp only [keysCanonicalList, Bool.and_eq_true] at h
    simp only [Schema.resolve_structure_list, resolve_canonical s v h.1, except_bind_ok,
      resolve_list_canonical s rest h.2]

theorem resolve_plain_canonical (s : Schema) : ∀ (kvs : List (String × SgValue)),
    keysCanonicalVals s kvs = true →
    Schema.resolve_structure_plain s kvs true true false = .ok kvs
  | [], _ => rfl
  | (k, v) :: rest, h => by
    simp only [keysCanonicalVals, Bool.and_eq_true] at h
    simp only [Schema.resolve_structure_plain, resolve_canonical s v h.1, except_bind_ok,
      resolve_plain_canonical s rest h.2]

theorem resolve_items_canonical (s : Schema) (e : String) (ent : Entity)
    (hE : s.entities.lookup e = some ent) :
    ∀ (kvs acc : List (String × SgValue)),
      keysCanonicalVals s kvs = true →
      (kvs.all fun kv => canonicalKey ent kv.1) = true →
      nodupKeys kvs = true →
      (∀ kv ∈ acc, ∀ kv2 ∈ kvs, kv.1 ≠ kv2.1) →
      Schema.resolve_structure_items s e kvs acc true true false = .ok (acc ++ kvs)
  | [], acc, _, _, _, _ => by
    rw [Schema.resolve_structure_items, List.append_nil]
  | (k, v) :: rest, acc, hvals, hall, hnodup, hdisj => by
    simp only [keysCanonicalVals, Bool.and_eq_true] at hvals
    simp only [List.all_cons, Bool.and_eq_true] at hall
    simp only [nodupKeys, Bool.and_eq_true] at hnodup
    have hknotin : k ∉ rest.map Prod.fst := by simpa using hnodup.1
    have hfresh : ∀ kv ∈ acc, kv.1 ≠ k := fun kv hm => hdisj kv hm (k, v) (by simp)
    have hdisj' : ∀ kv ∈ acc ++ [(k, v)], ∀ kv2 ∈ rest, kv.1 ≠ kv2.1 := by
      intro kv hm kv2 hm2
      rcases List.mem_append.mp hm with hacc | hsing
      · exact hdisj kv hacc kv2 (by simp [hm2])
      · have hkv : kv = (k, v) := by simpa using hsing
        subst hkv
        intro heq
        have hke : k = kv2.1 := heq
        have hmem2 : kv2.1 ∈ rest.map Prod.fst := List.mem_map_of_mem Prod.fst hm2
        exact hknotin (by rw [hke]; exact hmem2)
    simp only [Schema.resolve_structure_items, resolve_canonical s v hvals.1, except_bind_ok,
      canonicalKey_resolve s e k ent hE hall.1, except_bind_ok, List.foldl]
    rw [dictInsert_append acc k v hfresh,
      resolve_items_canonical s e ent hE rest (acc ++ [(k, v)]) hvals.2 hall.2 hnodup.2 hdisj',
      List.append_assoc]
    rfl

end

/-- C8: idempotence of structure rewriting at the default options: if every
mapping key that gets resolved against an entity type is already a
canonical physical field name of that entity type (and, as a Python dict
guarantees, keys are distinct), a second rewrite changes nothing. -/
theorem claim_C8 (s : Schema) (x : SgValue) (h : keysCanonical s x = true) :
    (s.resolve_structure x none true true false).bind
        (fun y => s.resolve_structure y none true true false)
      = s.resolve_structure x none true true false := by
  rw [resolve_canonical s x h]
  show s.resolve_structure x none true true false = _
  rw [resolve_canonical s x h]

theorem claim_C8_witness :
    keysCanonical demoSchema
        (.dict [("type", .str "Shot"), ("sg_status_list", .str "ip"),
                ("sg_foo", .list [.int 3, .dict [("plain", .str "v")]])]) = true ∧
    (demoSchema.resolve_structure
        (.dict [("type", .str "Shot"), ("sg_status_list", .str "ip"),
                ("sg_foo", .list [.int 3, .dict [("plain", .str "v")]])])
        none true true false).bind
        (fun y => demoSchema.resolve_structure y none true true false)
      = demoSchema.resolve_structure
          (.dict [("type", .str "Shot"), ("sg_status_list", .str "ip"),
                  ("sg_foo", .list [.int 3, .dict [("plain", .str "v")]])])
          none true true false :=
  ⟨by decide,
   claim_C8 demoSchema
     (.dict [("type", .str "Shot"), ("sg_status_list", .str "ip"),
             ("sg_foo", .list [.int 3, .dict [("plain", .str "v")]])])
     (by decide)⟩

end SgSchema
